import Mathlib

/-!
Shallow embedding of `src/unreliable_bincode_channel.rs` from the
`turbulence` crate: a typed, size-bounded message framing layer over an
unreliable packet transport.

Bytes are modelled as `Nat` (values below 256 where it matters), byte
buffers as `List Nat`.  The underlying `UnreliableChannel` and the
`bincode` library are not part of this repository's sources; they are
modelled from the specification's interface section (see the
`Modelled from the spec:` doc comments below).
-/

namespace Turbulence

/-- Errors produced by the external `bincode` library (opaque payload of
`SendError::BincodeError` / `RecvError::BincodeError`).  `sizeLimit` is the
error raised when the configured byte limit is exceeded; `badInput` covers
malformed-input errors, tagged to keep distinct causes distinct. -/
inductive BincodeErr where
  | sizeLimit
  | badInput (tag : Nat)
deriving DecidableEq

/-- `unreliable_channel::SendError`: error type of the underlying channel's
`send` and `flush`. -/
inductive InnerSendError where
  | Disconnected
  | TooBig
deriving DecidableEq

/-- `unreliable_channel::RecvError`: error type of the underlying channel's
`recv`. -/
inductive InnerRecvError where
  | Disconnected
  | BadFormat
  | TooBig
deriving DecidableEq

/-- `SendError` of `unreliable_bincode_channel.rs`. -/
inductive SendError where
  | Disconnected
  | BincodeError (e : BincodeErr)
deriving DecidableEq

/-- `RecvError` of `unreliable_bincode_channel.rs`. -/
inductive RecvError where
  | Disconnected
  | BadFormat
  | BincodeError (e : BincodeErr)
deriving DecidableEq

/-- Result of `UnreliableBincodeChannel::send` / `flush`.  `panicked` models
reaching the `unreachable!` branch of `from_inner_send_err`. -/
inductive SendOutcome where
  | ok
  | err (e : SendError)
  | panicked
deriving DecidableEq

/-- Result of `UnreliableBincodeChannel::recv`.  `panicked` models reaching
the `unreachable!` branch of `from_inner_recv_err`. -/
inductive RecvOutcome (M : Type) where
  | ok (m : M)
  | err (e : RecvError)
  | panicked
deriving DecidableEq

/-- Modelled from the spec: the underlying unreliable channel
(`UnreliableChannel`, not in `src/`), exposed through the interface of §6:
`send(byte_slice)`, `flush()`, and `recv(mutable_byte_buffer)` which fills
the caller's buffer and returns the number of bytes written.  `σ` is the
channel's internal state; `recv` returns the new state, the new contents of
the caller's buffer, and either the byte count or an error.  `none` as the
error component of `send`/`flush` means success. -/
structure InnerChannel (σ : Type) where
  send : σ → List Nat → σ × Option InnerSendError
  flush : σ → σ × Option InnerSendError
  recv : σ → List Nat → σ × List Nat × Except InnerRecvError Nat

/-- A bincode codec for message type `M`, modelled from the spec
(`bincode` is an external library).  `enc` gives the serialized bytes of a
value; `dec limit bytes` models `bincode::options().with_limit(limit)
.deserialize(bytes)`: deserialization bounded to read at most `limit`
bytes, rejecting trailing input. -/
structure Codec (M : Type) where
  enc : M → List Nat
  dec : Nat → List Nat → Except BincodeErr M

/-- Modelled from the spec: `bincode_config().serialize_into(&mut buffer[..], msg)`
with `with_limit(limit)`.  Serialization fails (with a size-limit error)
when the encoded form exceeds the limit or the buffer; on success the
encoded bytes occupy the buffer prefix and the writer's remaining free
length is returned.  The returned list is the buffer's new contents (a
failing serialize may leave a partial write in the buffer); `none` in the
second component is the bincode error. -/
def serialize_into {M : Type} (c : Codec M) (limit : Nat) (buf : List Nat)
    (msg : M) : List Nat × Option Nat :=
  let bytes := c.enc msg
  (bytes.take buf.length ++ buf.drop bytes.length,
    if bytes.length ≤ limit ∧ bytes.length ≤ buf.length then
      some (buf.length - bytes.length)
    else none)

/-- `from_inner_send_err` (source lines 138–145).  The `TooBig` arm is an
`unreachable!` panic, modelled as `none`. -/
def from_inner_send_err : InnerSendError → Option SendError
  | .Disconnected => some .Disconnected
  | .TooBig => none

/-- `from_inner_recv_err` (source lines 147–155).  The `TooBig` arm is an
`unreachable!` panic, modelled as `none`. -/
def from_inner_recv_err : InnerRecvError → Option RecvError
  | .Disconnected => some .Disconnected
  | .BadFormat => some .BadFormat
  | .TooBig => none

/-- `UnreliableBincodeChannel`: the underlying channel state plus the one
reusable encode/decode buffer. -/
structure UnreliableBincodeChannel (σ : Type) where
  channel : σ
  buffer : List Nat
deriving DecidableEq

namespace UnreliableBincodeChannel

/-- `UnreliableBincodeChannel::new`: wraps a fresh underlying channel state
(`s0`, standing for `UnreliableChannel::new(packet_pool, incoming,
outgoing)`) and allocates the buffer as `vec![0; MAX_MESSAGE_LEN]`.
`maxLen` stands for `MAX_MESSAGE_LEN`. -/
def new {σ : Type} (maxLen : Nat) (s0 : σ) : UnreliableBincodeChannel σ :=
  ⟨s0, List.replicate maxLen 0⟩

/-- Maps the result of the underlying `send`/`flush` through
`map_err(from_inner_send_err)`. -/
def sendOutcomeOfInner : Option InnerSendError → SendOutcome
  | none => .ok
  | some ie =>
      match from_inner_send_err ie with
      | some se => .err se
      | none => .panicked

/-- `UnreliableBincodeChannel::send` (source lines 59–70): serialize into
the buffer with `bincode_config()` (limit `maxLen`); on failure return
`SendError::BincodeError`; on success compute `written` from the writer's
remaining length and hand `buffer[0..written]` to the underlying send. -/
def send {σ M : Type} (inner : InnerChannel σ) (c : Codec M) (maxLen : Nat)
    (st : UnreliableBincodeChannel σ) (msg : M) :
    UnreliableBincodeChannel σ × SendOutcome :=
  match serialize_into c maxLen st.buffer msg with
  | (buf', none) => (⟨st.channel, buf'⟩, .err (.BincodeError .sizeLimit))
  | (buf', some remaining) =>
      let written := st.buffer.length - remaining
      let res := inner.send st.channel (buf'.take written)
      (⟨res.1, buf'⟩, sendOutcomeOfInner res.2)

/-- `UnreliableBincodeChannel::flush` (source lines 76–78). -/
def flush {σ : Type} (inner : InnerChannel σ)
    (st : UnreliableBincodeChannel σ) :
    UnreliableBincodeChannel σ × SendOutcome :=
  let res := inner.flush st.channel
  (⟨res.1, st.buffer⟩, sendOutcomeOfInner res.2)

/-- Maps a decode result into recv's return value
(`map_err(RecvError::BincodeError)`). -/
def recvOutcomeOfDec {M : Type} : Except BincodeErr M → RecvOutcome M
  | .ok m => .ok m
  | .error e => .err (.BincodeError e)

/-- `UnreliableBincodeChannel::recv` (source lines 81–90): let the
underlying channel fill `buffer[..]` and return `len`, mapping its error
through `from_inner_recv_err`; then `bincode_config().deserialize` the
slice `buffer[0..len]`. -/
def recv {σ M : Type} (inner : InnerChannel σ) (c : Codec M) (maxLen : Nat)
    (st : UnreliableBincodeChannel σ) :
    UnreliableBincodeChannel σ × RecvOutcome M :=
  let res := inner.recv st.channel st.buffer
  match res.2.2 with
  | .error ie =>
      (⟨res.1, res.2.1⟩,
        match from_inner_recv_err ie with
        | some re => .err re
        | none => .panicked)
  | .ok len => (⟨res.1, res.2.1⟩, recvOutcomeOfDec (c.dec maxLen (res.2.1.take len)))

end UnreliableBincodeChannel

/-- `UnreliableTypedChannel` (source lines 94–100): wraps an
`UnreliableBincodeChannel` plus `PhantomData<T>`.  The phantom marker is
zero-sized and carries no runtime state, so the model holds only the inner
channel. -/
structure UnreliableTypedChannel (σ : Type) where
  channel : UnreliableBincodeChannel σ
deriving DecidableEq

namespace UnreliableTypedChannel

/-- `UnreliableTypedChannel::new` (source lines 106–111): builds an
`UnreliableBincodeChannel` from the same arguments. -/
def new {σ : Type} (maxLen : Nat) (s0 : σ) : UnreliableTypedChannel σ :=
  ⟨UnreliableBincodeChannel.new maxLen s0⟩

/-- `UnreliableTypedChannel::flush` (source lines 113–115): delegates. -/
def flush {σ : Type} (inner : InnerChannel σ)
    (st : UnreliableTypedChannel σ) : UnreliableTypedChannel σ × SendOutcome :=
  let res := UnreliableBincodeChannel.flush inner st.channel
  (⟨res.1⟩, res.2)

/-- `UnreliableTypedChannel::send` (source lines 123–125): delegates. -/
def send {σ M : Type} (inner : InnerChannel σ) (c : Codec M) (maxLen : Nat)
    (st : UnreliableTypedChannel σ) (msg : M) :
    UnreliableTypedChannel σ × SendOutcome :=
  let res := UnreliableBincodeChannel.send inner c maxLen st.channel msg
  (⟨res.1⟩, res.2)

/-- `UnreliableTypedChannel::recv` (source lines 133–135): delegates. -/
def recv {σ M : Type} (inner : InnerChannel σ) (c : Codec M) (maxLen : Nat)
    (st : UnreliableTypedChannel σ) :
    UnreliableTypedChannel σ × RecvOutcome M :=
  let res := UnreliableBincodeChannel.recv inner c maxLen st.channel
  (⟨res.1⟩, res.2)

end UnreliableTypedChannel

/-! ### Concrete instantiations used by the theorems

A lossless loopback transport (a queue of pending messages) standing in for
an `UnreliableChannel` on a run where nothing is dropped or reordered, and
two concrete bincode codecs (varint `u64`, `Vec<u8>`), all modelled from
the spec since the real implementations live outside this repository. -/

/-- Modelled from the spec: a lossless underlying channel whose state is
the queue of message byte slices handed to `send` so far and not yet
delivered.  `send` appends the slice, `flush` succeeds without effect,
`recv` pops the next message into the caller's buffer and returns its
length (`Disconnected` when the queue is empty, `TooBig` when the message
does not fit the buffer, matching §6's error set). -/
def queueInner : InnerChannel (List (List Nat)) where
  send s bytes := (s ++ [bytes], none)
  flush s := (s, none)
  recv s buf :=
    match s with
    | [] => ([], buf, .error .Disconnected)
    | m :: rest =>
        if m.length ≤ buf.length then
          (rest, m.take buf.length ++ buf.drop m.length, .ok m.length)
        else (rest, buf, .error .TooBig)

/-- Little-endian byte rendering of `n` on `k` bytes. -/
def leBytes : Nat → Nat → List Nat
  | 0, _ => []
  | k + 1, n => n % 256 :: leBytes k (n / 256)

/-- Value of a little-endian byte list. -/
def fromLE : List Nat → Nat
  | [] => 0
  | b :: bs => b + 256 * fromLE bs

/-- Modelled from the spec: bincode's varint encoding of a `u64` under
`bincode::options()` (single byte below 251; markers 251/252/253 followed
by a little-endian `u16`/`u32`/`u64`). -/
def varintEnc (n : Nat) : List Nat :=
  if n < 251 then [n]
  else if n < 2 ^ 16 then 251 :: leBytes 2 n
  else if n < 2 ^ 32 then 252 :: leBytes 4 n
  else 253 :: leBytes 8 n

/-- Reads one varint from the front of a byte list: value, bytes consumed,
remaining input.  `none` on malformed or truncated input. -/
def readVarint : List Nat → Option (Nat × Nat × List Nat)
  | [] => none
  | b :: rest =>
    if b < 251 then some (b, 1, rest)
    else if b = 251 then
      match rest with
      | b0 :: b1 :: r => some (fromLE [b0, b1], 3, r)
      | _ => none
    else if b = 252 then
      match rest with
      | b0 :: b1 :: b2 :: b3 :: r => some (fromLE [b0, b1, b2, b3], 5, r)
      | _ => none
    else if b = 253 then
      match rest with
      | b0 :: b1 :: b2 :: b3 :: b4 :: b5 :: b6 :: b7 :: r =>
          some (fromLE [b0, b1, b2, b3, b4, b5, b6, b7], 9, r)
      | _ => none
    else none

/-- Modelled from the spec: deserializing a `u64` with
`bincode::options().with_limit(limit)`: reading past the byte limit is a
size-limit error, trailing input is rejected. -/
def varintDec (limit : Nat) (l : List Nat) : Except BincodeErr Nat :=
  match readVarint l with
  | none => .error (.badInput 0)
  | some (v, consumed, rest) =>
      if limit < consumed then .error .sizeLimit
      else if rest.isEmpty then .ok v
      else .error (.badInput 1)

/-- The `u64` codec under the channel's bincode configuration. -/
def varintCodec : Codec Nat := ⟨varintEnc, varintDec⟩

/-- Modelled from the spec: bincode's encoding of a `Vec<u8>` under
`bincode::options()`: varint length prefix followed by the raw bytes. -/
def vecEnc (v : List Nat) : List Nat := varintEnc v.length ++ v

/-- Modelled from the spec: deserializing a `Vec<u8>` with
`bincode::options().with_limit(limit)`.  The declared length is checked
against the remaining byte limit before the bytes are read, so a length
prefix whose decoding would need more than `limit` bytes is a size-limit
error even when the input is short; trailing input is rejected. -/
def vecDec (limit : Nat) (l : List Nat) : Except BincodeErr (List Nat) :=
  match readVarint l with
  | none => .error (.badInput 0)
  | some (n, consumed, rest) =>
      if limit < consumed + n then .error .sizeLimit
      else if rest.length < n then .error (.badInput 2)
      else if n < rest.length then .error (.badInput 1)
      else .ok rest

/-- The `Vec<u8>` codec under the channel's bincode configuration. -/
def vecCodec : Codec (List Nat) := ⟨vecEnc, vecDec⟩

/-! ### Helper lemmas about the send path -/

theorem serialize_into_length {M : Type} (c : Codec M) (limit : Nat)
    (buf : List Nat) (msg : M) :
    (serialize_into c limit buf msg).1.length = buf.length := by
  simp only [serialize_into, List.length_append, List.length_take, List.length_drop]
  omega

theorem serialize_into_fits {M : Type} (c : Codec M) (limit : Nat)
    (buf : List Nat) (msg : M)
    (h1 : (c.enc msg).length ≤ limit) (h2 : (c.enc msg).length ≤ buf.length) :
    serialize_into c limit buf msg =
      (c.enc msg ++ buf.drop (c.enc msg).length,
       some (buf.length - (c.enc msg).length)) := by
  simp [serialize_into, h1, h2, List.take_of_length_le h2]

theorem serialize_into_oversize {M : Type} (c : Codec M) (limit : Nat)
    (buf : List Nat) (msg : M)
    (h : ¬((c.enc msg).length ≤ limit ∧ (c.enc msg).length ≤ buf.length)) :
    serialize_into c limit buf msg =
      ((c.enc msg).take buf.length ++ buf.drop (c.enc msg).length, none) := by
  simp [serialize_into, h]

/-- When the encoded message fits both the limit and the buffer, `send`
serializes into the buffer prefix and hands exactly the encoded bytes to
the underlying channel's send. -/
theorem send_eq_of_fits {σ M : Type} (inner : InnerChannel σ) (c : Codec M)
    (maxLen : Nat) (st : UnreliableBincodeChannel σ) (msg : M)
    (h1 : (c.enc msg).length ≤ maxLen) (h2 : (c.enc msg).length ≤ st.buffer.length) :
    UnreliableBincodeChannel.send inner c maxLen st msg =
      (⟨(inner.send st.channel (c.enc msg)).1,
        c.enc msg ++ st.buffer.drop (c.enc msg).length⟩,
       UnreliableBincodeChannel.sendOutcomeOfInner
         (inner.send st.channel (c.enc msg)).2) := by
  unfold UnreliableBincodeChannel.send
  rw [serialize_into_fits c maxLen st.buffer msg h1 h2]
  have hw : st.buffer.length - (st.buffer.length - (c.enc msg).length) =
      (c.enc msg).length := Nat.sub_sub_self h2
  simp only [hw, List.take_left]

/-- When the encoded message fits neither constraint, `send` fails with a
bincode error, leaving the underlying channel untouched. -/
theorem send_eq_of_oversize {σ M : Type} (inner : InnerChannel σ) (c : Codec M)
    (maxLen : Nat) (st : UnreliableBincodeChannel σ) (msg : M)
    (h : ¬((c.enc msg).length ≤ maxLen ∧ (c.enc msg).length ≤ st.buffer.length)) :
    UnreliableBincodeChannel.send inner c maxLen st msg =
      (⟨st.channel, (c.enc msg).take st.buffer.length ++
          st.buffer.drop (c.enc msg).length⟩,
       .err (.BincodeError .sizeLimit)) := by
  unfold UnreliableBincodeChannel.send
  rw [serialize_into_oversize c maxLen st.buffer msg h]

/-- The state component of a `send` result always carries the buffer left
by the serialization attempt. -/
theorem send_buffer_eq {σ M : Type} (inner : InnerChannel σ) (c : Codec M)
    (maxLen : Nat) (st : UnreliableBincodeChannel σ) (msg : M) :
    (UnreliableBincodeChannel.send inner c maxLen st msg).1.buffer =
      (serialize_into c maxLen st.buffer msg).1 := by
  unfold UnreliableBincodeChannel.send
  rcases hs : serialize_into c maxLen st.buffer msg with ⟨buf', r⟩
  cases r <;> rfl

/-- The state component of a `recv` result always carries the buffer as
filled by the underlying channel's recv. -/
theorem recv_buffer_eq {σ M : Type} (inner : InnerChannel σ) (c : Codec M)
    (maxLen : Nat) (st : UnreliableBincodeChannel σ) :
    (UnreliableBincodeChannel.recv inner c maxLen st).1.buffer =
      (inner.recv st.channel st.buffer).2.1 := by
  rcases hr : inner.recv st.channel st.buffer with ⟨s', buf', r⟩
  cases r <;> simp [UnreliableBincodeChannel.recv, hr]

/-- Sequentially sends a list of messages, threading the channel state
(the result of each `send` call feeds the next). -/
def sendAll {σ M : Type} (inner : InnerChannel σ) (c : Codec M) (maxLen : Nat) :
    UnreliableBincodeChannel σ → List M → UnreliableBincodeChannel σ
  | st, [] => st
  | st, m :: ms =>
      sendAll inner c maxLen (UnreliableBincodeChannel.send inner c maxLen st m).1 ms

/-- On the lossless queue transport, receiving with a non-empty queue pops
the head message into the buffer and decodes exactly its bytes. -/
theorem recv_queue_eq {M : Type} (c : Codec M) (maxLen : Nat) (m : List Nat)
    (q : List (List Nat)) (st : UnreliableBincodeChannel (List (List Nat)))
    (hch : st.channel = m :: q) (hfit : m.length ≤ st.buffer.length) :
    UnreliableBincodeChannel.recv queueInner c maxLen st =
      (⟨q, m ++ st.buffer.drop m.length⟩,
       UnreliableBincodeChannel.recvOutcomeOfDec (c.dec maxLen m)) := by
  have hq : queueInner.recv st.channel st.buffer =
      (q, m ++ st.buffer.drop m.length, Except.ok m.length) := by
    rw [hch]
    simp [queueInner, hfit, List.take_of_length_le hfit]
  have htake : (m ++ st.buffer.drop m.length).take m.length = m :=
    List.take_left m _
  simp [UnreliableBincodeChannel.recv, hq, htake]

/-! ### Varint codec lemmas -/

theorem readVarint_varintEnc (n : Nat) (hn : n < 2 ^ 64) :
    readVarint (varintEnc n) = some (n, (varintEnc n).length, []) := by
  unfold varintEnc
  by_cases h1 : n < 251
  · simp [readVarint, h1]
  by_cases h2 : n < 2 ^ 16
  · simp only [if_neg h1, if_pos h2]
    simp [readVarint, leBytes, fromLE]
    omega
  by_cases h3 : n < 2 ^ 32
  · simp only [if_neg h1, if_neg h2, if_pos h3]
    simp [readVarint, leBytes, fromLE]
    omega
  · simp only [if_neg h1, if_neg h2, if_neg h3]
    simp [readVarint, leBytes, fromLE]
    omega

/-- Round-trip of the modelled bincode `u64` codec under its byte limit. -/
theorem varintDec_varintEnc (limit n : Nat) (hn : n < 2 ^ 64)
    (hfit : (varintEnc n).length ≤ limit) :
    varintDec limit (varintEnc n) = Except.ok n := by
  unfold varintDec
  rw [readVarint_varintEnc n hn]
  have hnl : ¬(limit < (varintEnc n).length) := by omega
  simp [hnl]

/-! ### Claim theorems -/

/-- C1: a message whose bincode-encoded form exceeds `MAX_MESSAGE_LEN`
makes `send` return `SendError::BincodeError` without invoking the
underlying channel's send: the theorem holds for every interpretation
`inner` of the underlying channel and leaves the channel component of the
state (everything except the scratch buffer) unchanged, so no underlying
interaction can have taken place. -/
theorem oversize_send_is_bincode_error {σ M : Type} (inner : InnerChannel σ)
    (c : Codec M) (maxLen : Nat) (st : UnreliableBincodeChannel σ) (msg : M)
    (h : maxLen < (c.enc msg).length) :
    (UnreliableBincodeChannel.send inner c maxLen st msg).1.channel = st.channel ∧
    (UnreliableBincodeChannel.send inner c maxLen st msg).2 =
      SendOutcome.err (SendError.BincodeError BincodeErr.sizeLimit) := by
  have hn : ¬((c.enc msg).length ≤ maxLen ∧ (c.enc msg).length ≤ st.buffer.length) := by
    omega
  rw [send_eq_of_oversize inner c maxLen st msg hn]
  exact ⟨rfl, rfl⟩

/-- Witness for C1: sending the value `300` (3-byte varint encoding) over
a channel whose `MAX_MESSAGE_LEN` is 1. -/
theorem oversize_send_is_bincode_error_witness :
    1 < (varintCodec.enc 300).length ∧
    ((UnreliableBincodeChannel.send queueInner varintCodec 1
        (UnreliableBincodeChannel.new 1 ([] : List (List Nat))) 300).1.channel =
      (UnreliableBincodeChannel.new 1 ([] : List (List Nat))).channel ∧
     (UnreliableBincodeChannel.send queueInner varintCodec 1
        (UnreliableBincodeChannel.new 1 ([] : List (List Nat))) 300).2 =
      SendOutcome.err (SendError.BincodeError BincodeErr.sizeLimit)) :=
  ⟨by decide,
   oversize_send_is_bincode_error queueInner varintCodec 1
     (UnreliableBincodeChannel.new 1 []) 300 (by decide)⟩

/-- C2: if the underlying channel only reports `TooBig` for slices longer
than `MAX_MESSAGE_LEN` (the two layers' size limits agree), `send` never
reaches the `unreachable!` branch of `from_inner_send_err`: every slice it
hands to the underlying send has length at most `MAX_MESSAGE_LEN`. -/
theorem send_never_panics_of_inner_agree {σ M : Type} (inner : InnerChannel σ)
    (c : Codec M) (maxLen : Nat)
    (hinner : ∀ s bytes, bytes.length ≤ maxLen →
      (inner.send s bytes).2 ≠ some InnerSendError.TooBig)
    (st : UnreliableBincodeChannel σ) (msg : M) :
    (UnreliableBincodeChannel.send inner c maxLen st msg).2 ≠
      SendOutcome.panicked := by
  by_cases h : (c.enc msg).length ≤ maxLen ∧ (c.enc msg).length ≤ st.buffer.length
  · rw [send_eq_of_fits inner c maxLen st msg h.1 h.2]
    have hne := hinner st.channel (c.enc msg) h.1
    cases he : (inner.send st.channel (c.enc msg)).2 with
    | none => simp [UnreliableBincodeChannel.sendOutcomeOfInner, he]
    | some ie =>
        cases ie with
        | Disconnected =>
            simp [UnreliableBincodeChannel.sendOutcomeOfInner, he,
              from_inner_send_err]
        | TooBig => exact absurd he hne
  · rw [send_eq_of_oversize inner c maxLen st msg h]
    simp

/-- Witness for C2: a lossless queue transport never reports `TooBig`, so
a concrete send does not panic. -/
theorem send_never_panics_of_inner_agree_witness :
    (UnreliableBincodeChannel.send queueInner varintCodec 5
      (UnreliableBincodeChannel.new 5 ([] : List (List Nat))) 300).2 ≠
      SendOutcome.panicked :=
  send_never_panics_of_inner_agree queueInner varintCodec 5
    (fun _ _ _ => by simp [queueInner]) (UnreliableBincodeChannel.new 5 []) 300

/-- C4: the translation from the underlying channel's errors to this
layer's errors is exact: `Disconnected` from the underlying send maps to
`SendError::Disconnected`, `Disconnected` from the underlying flush maps to
`SendError::Disconnected`, and `Disconnected` / `BadFormat` from the
underlying recv map to `RecvError::Disconnected` / `RecvError::BadFormat`;
the pure translation functions realize exactly the spec's table. -/
theorem error_translation_exact {σ M : Type} (inner : InnerChannel σ)
    (c : Codec M) (maxLen : Nat) :
    from_inner_send_err InnerSendError.Disconnected = some SendError.Disconnected ∧
    from_inner_recv_err InnerRecvError.Disconnected = some RecvError.Disconnected ∧
    from_inner_recv_err InnerRecvError.BadFormat = some RecvError.BadFormat ∧
    (∀ (st : UnreliableBincodeChannel σ) (msg : M),
      (c.enc msg).length ≤ maxLen → (c.enc msg).length ≤ st.buffer.length →
      (inner.send st.channel (c.enc msg)).2 = some InnerSendError.Disconnected →
      (UnreliableBincodeChannel.send inner c maxLen st msg).2 =
        SendOutcome.err SendError.Disconnected) ∧
    (∀ st : UnreliableBincodeChannel σ,
      (inner.flush st.channel).2 = some InnerSendError.Disconnected →
      (UnreliableBincodeChannel.flush inner st).2 =
        SendOutcome.err SendError.Disconnected) ∧
    (∀ st : UnreliableBincodeChannel σ,
      (inner.recv st.channel st.buffer).2.2 = Except.error InnerRecvError.Disconnected →
      (UnreliableBincodeChannel.recv inner c maxLen st).2 =
        RecvOutcome.err RecvError.Disconnected) ∧
    (∀ st : UnreliableBincodeChannel σ,
      (inner.recv st.channel st.buffer).2.2 = Except.error InnerRecvError.BadFormat →
      (UnreliableBincodeChannel.recv inner c maxLen st).2 =
        RecvOutcome.err RecvError.BadFormat) := by
  refine ⟨rfl, rfl, rfl, ?_, ?_, ?_, ?_⟩
  · intro st msg h1 h2 he
    rw [send_eq_of_fits inner c maxLen st msg h1 h2]
    simp [UnreliableBincodeChannel.sendOutcomeOfInner, he, from_inner_send_err]
  · intro st he
    simp [UnreliableBincodeChannel.flush, UnreliableBincodeChannel.sendOutcomeOfInner,
      he, from_inner_send_err]
  · intro st he
    simp [UnreliableBincodeChannel.recv, he, from_inner_recv_err]
  · intro st he
    simp [UnreliableBincodeChannel.recv, he, from_inner_recv_err]

/-- Witness for C4: receiving on a disconnected (empty-queue) transport
yields `RecvError::Disconnected`. -/
theorem error_translation_exact_witness :
    (UnreliableBincodeChannel.recv queueInner varintCodec 3
      (⟨[], List.replicate 3 0⟩ : UnreliableBincodeChannel (List (List Nat)))).2 =
      RecvOutcome.err RecvError.Disconnected :=
  (error_translation_exact queueInner varintCodec 3).2.2.2.2.2.1
    ⟨[], List.replicate 3 0⟩ rfl

/-- C7: the buffer is allocated at construction with length exactly
`MAX_MESSAGE_LEN` and no operation changes its length: `send` (successful
or failing), `flush`, and `recv` all preserve it (`recv` under the fact —
guaranteed by Rust's slice type for `&mut self.buffer[..]` — that the
underlying recv fills the buffer in place without resizing it). -/
theorem buffer_fixed_capacity {σ M : Type} (inner : InnerChannel σ)
    (c : Codec M) (maxLen : Nat) :
    (∀ s0 : σ, (UnreliableBincodeChannel.new maxLen s0).buffer.length = maxLen) ∧
    (∀ (st : UnreliableBincodeChannel σ) (msg : M),
      (UnreliableBincodeChannel.send inner c maxLen st msg).1.buffer.length =
        st.buffer.length) ∧
    (∀ st : UnreliableBincodeChannel σ,
      (UnreliableBincodeChannel.flush inner st).1.buffer.length = st.buffer.length) ∧
    (∀ st : UnreliableBincodeChannel σ,
      ((inner.recv st.channel st.buffer).2.1).length = st.buffer.length →
      (UnreliableBincodeChannel.recv inner c maxLen st).1.buffer.length =
        st.buffer.length) := by
  refine ⟨?_, ?_, ?_, ?_⟩
  · intro s0
    simp [UnreliableBincodeChannel.new]
  · intro st msg
    rw [send_buffer_eq inner c maxLen st msg]
    exact serialize_into_length c maxLen st.buffer msg
  · intro st
    rfl
  · intro st h
    rw [recv_buffer_eq inner c maxLen st]
    exact h

/-- Witness for C7: a concrete recv on the queue transport preserves the
buffer length. -/
theorem buffer_fixed_capacity_witness :
    (UnreliableBincodeChannel.recv queueInner varintCodec 3
      (⟨[[5]], List.replicate 3 0⟩ : UnreliableBincodeChannel (List (List Nat)))).1.buffer.length =
      (⟨[[5]], List.replicate 3 0⟩ : UnreliableBincodeChannel (List (List Nat))).buffer.length :=
  (buffer_fixed_capacity queueInner varintCodec 3).2.2.2
    ⟨[[5]], List.replicate 3 0⟩ (by decide)

/-- C5: on every successful send the slice handed to the underlying
channel is exactly the bincode serialization of the current message
(`buffer[0..written]` with `written` the exact byte count just written),
and consequently a sequence of sends transmits exactly the per-message
encodings — bytes left in the buffer by earlier messages never appear in a
later transmission (second conjunct, observed through the queue transport
which records every transmitted slice). -/
theorem send_transmits_exactly_encoded_bytes {M : Type} (c : Codec M)
    (maxLen : Nat) :
    (∀ (σ : Type) (inner : InnerChannel σ) (st : UnreliableBincodeChannel σ)
        (msg : M),
      (c.enc msg).length ≤ maxLen → st.buffer.length = maxLen →
      UnreliableBincodeChannel.send inner c maxLen st msg =
        (⟨(inner.send st.channel (c.enc msg)).1,
          c.enc msg ++ st.buffer.drop (c.enc msg).length⟩,
         UnreliableBincodeChannel.sendOutcomeOfInner
           (inner.send st.channel (c.enc msg)).2)) ∧
    (∀ (st : UnreliableBincodeChannel (List (List Nat))) (msgs : List M),
      (∀ m ∈ msgs, (c.enc m).length ≤ maxLen) → st.buffer.length = maxLen →
      (sendAll queueInner c maxLen st msgs).channel =
        st.channel ++ msgs.map c.enc) := by
  constructor
  · intro σ inner st msg h1 h2
    exact send_eq_of_fits inner c maxLen st msg h1 (h2 ▸ h1)
  · intro st msgs hall hbuf
    induction msgs generalizing st with
    | nil => simp [sendAll]
    | cons m ms ih =>
        have hm : (c.enc m).length ≤ maxLen := hall m (by simp)
        have hstep := send_eq_of_fits queueInner c maxLen st m hm (hbuf ▸ hm)
        have hsend1 : (UnreliableBincodeChannel.send queueInner c maxLen st m).1 =
            ⟨st.channel ++ [c.enc m],
             c.enc m ++ st.buffer.drop (c.enc m).length⟩ := by
          rw [hstep]
          rfl
        have hlen : (c.enc m ++ st.buffer.drop (c.enc m).length).length = maxLen := by
          simp only [List.length_append, List.length_drop, hbuf]
          omega
        have ih2 := ih ⟨st.channel ++ [c.enc m],
            c.enc m ++ st.buffer.drop (c.enc m).length⟩
          (fun x hx => hall x (by simp [hx])) hlen
        simp only [sendAll, hsend1, ih2, List.map_cons]
        simp

/-- Witness for C5: two sequential sends over the recording queue
transport transmit exactly the two encodings. -/
theorem send_transmits_exactly_encoded_bytes_witness :
    (sendAll queueInner varintCodec 3
      (UnreliableBincodeChannel.new 3 ([] : List (List Nat))) [7, 300]).channel =
      (UnreliableBincodeChannel.new 3 ([] : List (List Nat))).channel ++
        [7, 300].map varintCodec.enc :=
  (send_transmits_exactly_encoded_bytes varintCodec 3).2
    (UnreliableBincodeChannel.new 3 []) [7, 300] (by decide) (by decide)

/-- C6: the typed channel delegates exactly: its `new` builds the same
bincode channel, and its `send`/`flush`/`recv` return the same outcome and
the same underlying bincode-channel state as calling the bincode channel's
operations directly; the wrapper holds no state beyond the wrapped channel
(its only field), the `PhantomData` marker being zero-sized. -/
theorem typed_channel_delegates {σ M : Type} (inner : InnerChannel σ)
    (c : Codec M) (maxLen : Nat) :
    (∀ s0 : σ, (UnreliableTypedChannel.new maxLen s0 : UnreliableTypedChannel σ).channel =
      UnreliableBincodeChannel.new maxLen s0) ∧
    (∀ (st : UnreliableTypedChannel σ) (msg : M),
      UnreliableTypedChannel.send inner c maxLen st msg =
        (⟨(UnreliableBincodeChannel.send inner c maxLen st.channel msg).1⟩,
         (UnreliableBincodeChannel.send inner c maxLen st.channel msg).2)) ∧
    (∀ st : UnreliableTypedChannel σ,
      UnreliableTypedChannel.flush inner st =
        (⟨(UnreliableBincodeChannel.flush inner st.channel).1⟩,
         (UnreliableBincodeChannel.flush inner st.channel).2)) ∧
    (∀ st : UnreliableTypedChannel σ,
      UnreliableTypedChannel.recv inner c maxLen st =
        (⟨(UnreliableBincodeChannel.recv inner c maxLen st.channel).1⟩,
         (UnreliableBincodeChannel.recv inner c maxLen st.channel).2)) :=
  ⟨fun _ => rfl, fun _ _ => rfl, fun _ => rfl, fun _ => rfl⟩

/-- C8: when the underlying recv delivers `len` bytes, `recv` decodes
exactly the first `len` bytes of the filled buffer (first conjunct), so
two receptions agreeing on those first `len` bytes — whatever stale bytes
sit beyond position `len` — produce the same decoded value or error
(second conjunct). -/
theorem recv_decodes_exactly_first_len_bytes {σ M : Type}
    (inner : InnerChannel σ) (c : Codec M) (maxLen : Nat) :
    (∀ (st : UnreliableBincodeChannel σ) (s' : σ) (b' : List Nat) (len : Nat),
      inner.recv st.channel st.buffer = (s', b', Except.ok len) →
      (UnreliableBincodeChannel.recv inner c maxLen st).2 =
        UnreliableBincodeChannel.recvOutcomeOfDec (c.dec maxLen (b'.take len))) ∧
    (∀ (st₁ st₂ : UnreliableBincodeChannel σ) (s₁ s₂ : σ)
        (b₁ b₂ : List Nat) (len : Nat),
      inner.recv st₁.channel st₁.buffer = (s₁, b₁, Except.ok len) →
      inner.recv st₂.channel st₂.buffer = (s₂, b₂, Except.ok len) →
      b₁.take len = b₂.take len →
      (UnreliableBincodeChannel.recv inner c maxLen st₁).2 =
        (UnreliableBincodeChannel.recv inner c maxLen st₂).2) := by
  have main : ∀ (st : UnreliableBincodeChannel σ) (s' : σ) (b' : List Nat) (len : Nat),
      inner.recv st.channel st.buffer = (s', b', Except.ok len) →
      (UnreliableBincodeChannel.recv inner c maxLen st).2 =
        UnreliableBincodeChannel.recvOutcomeOfDec (c.dec maxLen (b'.take len)) := by
    intro st s' b' len h
    simp [UnreliableBincodeChannel.recv, h]
  refine ⟨main, ?_⟩
  intro st₁ st₂ s₁ s₂ b₁ b₂ len h₁ h₂ hpre
  rw [main st₁ s₁ b₁ len h₁, main st₂ s₂ b₂ len h₂, hpre]

/-- Witness for C8: the same message received into a buffer holding stale
`9`s and into a zeroed buffer decodes identically. -/
theorem recv_decodes_exactly_first_len_bytes_witness :
    (UnreliableBincodeChannel.recv queueInner varintCodec 3
      (⟨[[5]], [9, 9, 9]⟩ : UnreliableBincodeChannel (List (List Nat)))).2 =
    (UnreliableBincodeChannel.recv queueInner varintCodec 3
      (⟨[[5]], [0, 0, 0]⟩ : UnreliableBincodeChannel (List (List Nat)))).2 :=
  (recv_decodes_exactly_first_len_bytes queueInner varintCodec 3).2
    ⟨[[5]], [9, 9, 9]⟩ ⟨[[5]], [0, 0, 0]⟩ [] [] [5, 9, 9] [5, 0, 0] 1
    rfl rfl (by decide)

/-- C10: `recv` is not atomic on decode failure: the message is consumed
from the underlying channel before the decode attempt, so a failed decode
returns `RecvError::BincodeError` with the incoming queue already advanced
past that message, and a subsequent `recv` decodes the next message. -/
theorem recv_decode_failure_consumes_message {M : Type} (c : Codec M)
    (maxLen : Nat) (m1 : List Nat) (rest : List (List Nat))
    (st : UnreliableBincodeChannel (List (List Nat)))
    (hch : st.channel = m1 :: rest) (hfit : m1.length ≤ st.buffer.length)
    (e : BincodeErr) (hdec : c.dec maxLen m1 = Except.error e) :
    (UnreliableBincodeChannel.recv queueInner c maxLen st).2 =
      RecvOutcome.err (RecvError.BincodeError e) ∧
    (UnreliableBincodeChannel.recv queueInner c maxLen st).1.channel = rest ∧
    (∀ (m2 : List Nat) (rest₂ : List (List Nat)) (v : M),
      rest = m2 :: rest₂ →
      m2.length ≤ (UnreliableBincodeChannel.recv queueInner c maxLen st).1.buffer.length →
      c.dec maxLen m2 = Except.ok v →
      (UnreliableBincodeChannel.recv queueInner c maxLen
        (UnreliableBincodeChannel.recv queueInner c maxLen st).1).2 =
        RecvOutcome.ok v) := by
  have h1 := recv_queue_eq c maxLen m1 rest st hch hfit
  refine ⟨?_, ?_, ?_⟩
  · rw [h1]
    simp [UnreliableBincodeChannel.recvOutcomeOfDec, hdec]
  · rw [h1]
  · intro m2 rest₂ v hrest hfit2 hdec2
    have hch2 : (UnreliableBincodeChannel.recv queueInner c maxLen st).1.channel =
        m2 :: rest₂ := by rw [h1]; exact hrest
    rw [recv_queue_eq c maxLen m2 rest₂ _ hch2 hfit2]
    simp [UnreliableBincodeChannel.recvOutcomeOfDec, hdec2]

/-- C3: round-trip — for a value whose bincode encoding is at most
`MAX_MESSAGE_LEN` bytes, decoding with the channel's bincode
configuration inverts encoding (first conjunct), and concretely sending
it and receiving it over a lossless transport succeeds and yields the
same value (remaining conjuncts). -/
theorem send_recv_roundtrip (maxLen v : Nat) (hv : v < 2 ^ 64)
    (hfit : (varintCodec.enc v).length ≤ maxLen) :
    varintCodec.dec maxLen (varintCodec.enc v) = Except.ok v ∧
    (UnreliableBincodeChannel.send queueInner varintCodec maxLen
      (UnreliableBincodeChannel.new maxLen ([] : List (List Nat))) v).2 =
      SendOutcome.ok ∧
    (UnreliableBincodeChannel.recv queueInner varintCodec maxLen
      (UnreliableBincodeChannel.send queueInner varintCodec maxLen
        (UnreliableBincodeChannel.new maxLen ([] : List (List Nat))) v).1).2 =
      RecvOutcome.ok v := by
  have hdec : varintCodec.dec maxLen (varintCodec.enc v) = Except.ok v :=
    varintDec_varintEnc maxLen v hv hfit
  have hbuf : (UnreliableBincodeChannel.new maxLen
      ([] : List (List Nat))).buffer.length = maxLen := by
    simp [UnreliableBincodeChannel.new]
  have hfit' : (varintCodec.enc v).length ≤
      (UnreliableBincodeChannel.new maxLen ([] : List (List Nat))).buffer.length := by
    rw [hbuf]; exact hfit
  have hstep := send_eq_of_fits queueInner varintCodec maxLen
    (UnreliableBincodeChannel.new maxLen []) v hfit hfit'
  refine ⟨hdec, ?_, ?_⟩
  · rw [hstep]; rfl
  · have hch : (UnreliableBincodeChannel.send queueInner varintCodec maxLen
        (UnreliableBincodeChannel.new maxLen ([] : List (List Nat))) v).1.channel =
        varintCodec.enc v :: [] := by
      rw [hstep]
      rfl
    have hfit2 : (varintCodec.enc v).length ≤
        (UnreliableBincodeChannel.send queueInner varintCodec maxLen
          (UnreliableBincodeChannel.new maxLen ([] : List (List Nat))) v).1.buffer.length := by
      rw [send_buffer_eq, serialize_into_length, hbuf]
      exact hfit
    rw [recv_queue_eq varintCodec maxLen (varintCodec.enc v) [] _ hch hfit2]
    simp [UnreliableBincodeChannel.recvOutcomeOfDec, hdec]

/-- Witness for C3: sending and receiving the value `300` with
`MAX_MESSAGE_LEN = 3` round-trips. -/
theorem send_recv_roundtrip_witness :
    varintCodec.dec 3 (varintCodec.enc 300) = Except.ok 300 ∧
    (UnreliableBincodeChannel.send queueInner varintCodec 3
      (UnreliableBincodeChannel.new 3 ([] : List (List Nat))) 300).2 =
      SendOutcome.ok ∧
    (UnreliableBincodeChannel.recv queueInner varintCodec 3
      (UnreliableBincodeChannel.send queueInner varintCodec 3
        (UnreliableBincodeChannel.new 3 ([] : List (List Nat))) 300).1).2 =
      RecvOutcome.ok 300 :=
  send_recv_roundtrip 3 300 (by decide) (by decide)

/-- C9: the decode path enforces the same `MAX_MESSAGE_LEN` limit as the
encode path: an incoming byte sequence whose declared length prefix would
require reading more than `MAX_MESSAGE_LEN` bytes is rejected by `recv`
with `RecvError::BincodeError` (the size-limit error) instead of being
decoded. -/
theorem recv_enforces_decode_limit (maxLen : Nat)
    (st : UnreliableBincodeChannel (List (List Nat)))
    (bs : List Nat) (q : List (List Nat)) (n consumed : Nat) (rest : List Nat)
    (hch : st.channel = bs :: q) (hfit : bs.length ≤ st.buffer.length)
    (hread : readVarint bs = some (n, consumed, rest))
    (hover : maxLen < consumed + n) :
    (UnreliableBincodeChannel.recv queueInner vecCodec maxLen st).2 =
      RecvOutcome.err (RecvError.BincodeError BincodeErr.sizeLimit) := by
  rw [recv_queue_eq vecCodec maxLen bs q st hch hfit]
  simp [vecCodec, vecDec, hread, hover, UnreliableBincodeChannel.recvOutcomeOfDec]

/-- Witness for C9: a message declaring a 1000-byte `Vec<u8>` against a
4-byte limit is rejected with the size-limit error. -/
theorem recv_enforces_decode_limit_witness :
    (UnreliableBincodeChannel.recv queueInner vecCodec 4
      (⟨[[251, 232, 3]], List.replicate 4 0⟩ :
        UnreliableBincodeChannel (List (List Nat)))).2 =
      RecvOutcome.err (RecvError.BincodeError BincodeErr.sizeLimit) :=
  recv_enforces_decode_limit 4 ⟨[[251, 232, 3]], List.replicate 4 0⟩
    [251, 232, 3] [] 1000 3 [] rfl (by decide) rfl (by decide)

/-- Witness for C10: a truncated `Vec<u8>` encoding declaring 1000 bytes
fails to decode but consumes its message; the following well-formed
message is then received. -/
theorem recv_decode_failure_consumes_message_witness :
    (UnreliableBincodeChannel.recv queueInner vecCodec 5
      (⟨[[251, 232, 3], [1, 7]], List.replicate 5 0⟩ :
        UnreliableBincodeChannel (List (List Nat)))).2 =
      RecvOutcome.err (RecvError.BincodeError BincodeErr.sizeLimit) ∧
    (UnreliableBincodeChannel.recv queueInner vecCodec 5
      (⟨[[251, 232, 3], [1, 7]], List.replicate 5 0⟩ :
        UnreliableBincodeChannel (List (List Nat)))).1.channel = [[1, 7]] ∧
    (∀ (m2 : List Nat) (rest₂ : List (List Nat)) (v : List Nat),
      [[1, 7]] = m2 :: rest₂ →
      m2.length ≤ (UnreliableBincodeChannel.recv queueInner vecCodec 5
        (⟨[[251, 232, 3], [1, 7]], List.replicate 5 0⟩ :
          UnreliableBincodeChannel (List (List Nat)))).1.buffer.length →
      vecCodec.dec 5 m2 = Except.ok v →
      (UnreliableBincodeChannel.recv queueInner vecCodec 5
        (UnreliableBincodeChannel.recv queueInner vecCodec 5
          (⟨[[251, 232, 3], [1, 7]], List.replicate 5 0⟩ :
            UnreliableBincodeChannel (List (List Nat)))).1).2 =
        RecvOutcome.ok v) :=
  recv_decode_failure_consumes_message vecCodec 5 [251, 232, 3] [[1, 7]]
    ⟨[[251, 232, 3], [1, 7]], List.replicate 5 0⟩ rfl (by decide)
    BincodeErr.sizeLimit rfl

end Turbulence
